import Mathlib

/-!
Shallow embedding of the pyshop data model (`src/website/models.py`)
and of its slug-generation hook.

The module `website.utils` (holding `unique_slug_generator`) is not part of
the sources; its behaviour is modelled from the specification, as marked on
the individual definitions.  Everything in `models.py` — the entity shapes,
the `pre_save_product_receiver` hook, and the declared referential actions
(`on_delete=CASCADE`, `on_delete=PROTECT`, `unique=True`,
`DecimalField(max_digits=8, decimal_places=3)`) — is embedded directly from
the source, with the storage semantics of the declared constraints spelled
out as operations on an explicit store.
-/

namespace PyShop

/-! Slug characters and normalisation -/

/-- A character allowed in the body of a slug: a lowercase ASCII letter or a
digit ("lowercase alphanumerics"). -/
def isSlugBody (c : Char) : Bool :=
  c.isLower || c.isDigit

/-- A character allowed anywhere in a slug: a body character or the
separator '-'. -/
def isSlugChar (c : Char) : Bool :=
  isSlugBody c || c == '-'

/-- Modelled from the spec: the character-level step of slug normalisation
(`website.utils` is missing from the sources).  Each character is
lowercased; a character that is not a lowercase alphanumeric afterwards
becomes the separator '-'. -/
def mapChar (c : Char) : Char :=
  let d := c.toLower
  if isSlugBody d then d else '-'

/-- Modelled from the spec: collapse adjacent separators, so that
"non-alphanumeric runs" become "a single separator". -/
def collapseSep : List Char → List Char
  | [] => []
  | [c] => [c]
  | a :: b :: rest =>
    if a == '-' && b == '-' then collapseSep (b :: rest)
    else a :: collapseSep (b :: rest)

/-- Modelled from the spec: trim leading and trailing separators. -/
def trimSep (l : List Char) : List Char :=
  ((l.dropWhile (fun c => c == '-')).reverse.dropWhile (fun c => c == '-')).reverse

/-- Modelled from the spec: normalise a title into its URL-safe base form —
"lowercase, non-alphanumeric runs collapsed to a single separator,
leading/trailing separators trimmed". -/
def slugify (s : String) : String :=
  String.mk (trimSep (collapseSep (s.data.map mapChar)))

/-- Modelled from the spec: the "generic placeholder" substituted when a
title normalises to an empty base form. -/
def fallbackSlug : String :=
  String.mk ['p', 'r', 'o', 'd', 'u', 'c', 't']

/-- Modelled from the spec: the base form fed to the uniqueness loop — the
normalised title, or the non-empty fallback when the title normalises to the
empty string. -/
def slug_base (title : String) : String :=
  let b := slugify title
  if b.data.isEmpty then fallbackSlug else b

/-- Modelled from the spec: the uniqueness loop.  Each candidate is the base
form with a random disambiguating token appended after a separator; the loop
re-checks each candidate against the existing slugs and stops at the first
fresh one.  The stream of random tokens is made explicit as a list argument;
an exhausted stream falls back to the base form. -/
def try_tokens (existing : List String) (base : String) : List String → String
  | [] => base
  | t :: ts =>
    let cand := base ++ String.mk ['-'] ++ t
    if existing.contains cand then try_tokens existing base ts else cand

/-- Modelled from the spec: `unique_slug_generator` from the missing
`website.utils`.  It derives the base form from the title, returns it when no
existing Product carries it, and otherwise enters the disambiguation loop.
The read-only collision queries are modelled by the `existing` list of slugs
already persisted. -/
def unique_slug_generator (existing : List String) (title : String)
    (tokens : List String) : String :=
  let base := slug_base title
  if existing.contains base then try_tokens existing base tokens else base

/-- The well-formedness predicate the spec demands of a generated slug:
non-empty, only lowercase alphanumerics and the separator, and no leading or
trailing separator. -/
def IsValidSlug (s : String) : Bool :=
  !s.data.isEmpty && s.data.all isSlugChar
    && (s.data.headD '-') != '-' && (s.data.getLastD '-') != '-'

/-- A disambiguating token drawn from the generator's fixed alphabet: a
non-empty string of lowercase alphanumerics. -/
def isGoodToken (t : String) : Bool :=
  !t.data.isEmpty && t.data.all isSlugBody

/-! Decimal values and Django's `DecimalField` validation

`ProductBase.price`, `PurchaseItem.quantity`, `PurchaseItem.total_price` and
`PurchasePaymentMethod.value` are all declared
`DecimalField(max_digits=8, decimal_places=3)`.  A decimal value is embedded
the way Python's `Decimal.as_tuple()` presents it: a digit tuple and an
exponent (the sign plays no role in digit counting and is omitted; the
non-finite exponents are not representable here). -/

structure DecimalVal where
  digits : List Nat
  exponent : Int
deriving Repr, DecidableEq

/-- Total number of significant digits of a decimal value, counted exactly as
Django's `DecimalValidator` counts them from the digit tuple and exponent. -/
def decimal_digit_count (d : DecimalVal) : Nat :=
  if 0 ≤ d.exponent then
    d.digits.length + (if d.digits = [0] then 0 else d.exponent.toNat)
  else
    let ae := (-d.exponent).toNat
    if d.digits.length < ae then ae else d.digits.length

/-- Number of fractional digits of a decimal value, counted exactly as
Django's `DecimalValidator` counts them. -/
def decimal_places_count (d : DecimalVal) : Nat :=
  if 0 ≤ d.exponent then 0
  else (-d.exponent).toNat

/-- Number of whole (integer-part) digits, as in Django's
`DecimalValidator`. -/
def whole_digit_count (d : DecimalVal) : Nat :=
  decimal_digit_count d - decimal_places_count d

/-- Django's `DecimalValidator(max_digits, decimal_places)`: the value passes
iff its total digits, its fractional digits, and its whole digits
(`max_digits - decimal_places` allowed) are all within bounds.  This is the
storage-level validation behind every
`DecimalField(max_digits=8, decimal_places=3)` in `models.py`. -/
def validate_decimal (max_digits decimal_places : Nat) (d : DecimalVal) : Bool :=
  decide (decimal_digit_count d ≤ max_digits)
    && decide (decimal_places_count d ≤ decimal_places)
    && decide (whole_digit_count d ≤ max_digits - decimal_places)

/-- The validation applied to `ProductBase.price`
(`DecimalField(max_digits=8, decimal_places=3)`, `models.py` lines 45–47). -/
def price_valid (d : DecimalVal) : Bool :=
  validate_decimal 8 3 d

/-- The acceptance condition in the words of the claim: "at most 8 total
digits and 3 fractional digits".  Stated separately so it can be compared
with the validation the declared field actually performs. -/
def claimed_price_accepts (d : DecimalVal) : Bool :=
  decide (decimal_digit_count d ≤ 8) && decide (decimal_places_count d ≤ 3)

/-! Entities (`models.py`)

Each record type carries the fields of its model class.  System-assigned
keys and foreign keys are embedded as `Nat` identifiers; image references as
strings (the model only stores a handle). -/

structure Category where
  id : Nat
  description : String
deriving Repr, DecidableEq

/-- Model `Product(ProductBase)`: `barcode` (primary key), the shared
`ProductBase` fields (`title`, `description`, `image`, `price`,
`category` — a required FK to `Category` with `on_delete=CASCADE`), plus
`slug = SlugField(unique=True)`. -/
structure Product where
  barcode : String
  title : String
  description : String
  image : String
  price : DecimalVal
  category : Nat
  slug : String
deriving Repr, DecidableEq

structure PaymentMethod where
  id : Nat
  description : String
deriving Repr, DecidableEq

structure PurchaseOrder where
  id : Nat
  timestamp : Nat
  user : Nat
  cart : Bool
deriving Repr, DecidableEq

/-- Model `PurchaseItem(ProductBase)`: inherits the `ProductBase` fields —
including the required `category` FK with `on_delete=CASCADE` — and adds its
own `id` primary key, a non-unique `barcode` copy, the `purchase_order` FK
(`on_delete=CASCADE`), `quantity` and `total_price`.  It has no slug
(`slug = None` in the source). -/
structure PurchaseItem where
  id : Nat
  barcode : String
  title : String
  description : String
  image : String
  price : DecimalVal
  category : Nat
  purchase_order : Nat
  quantity : DecimalVal
  total_price : DecimalVal
deriving Repr, DecidableEq

/-- Model `PurchasePaymentMethod`: join entity; `purchase_order` FK cascades,
`payment_method` FK is `on_delete=PROTECT`. -/
structure PurchasePaymentMethod where
  id : Nat
  purchase_order : Nat
  payment_method : Nat
  value : DecimalVal
deriving Repr, DecidableEq

/-- The persistent store all entities live in. -/
structure Store where
  categories : List Category
  products : List Product
  paymentMethods : List PaymentMethod
  purchaseOrders : List PurchaseOrder
  purchaseItems : List PurchaseItem
  purchasePaymentMethods : List PurchasePaymentMethod
deriving Repr, DecidableEq

/-- Storage-level errors an operation can surface to its caller. -/
inductive DBError where
  | integrityError
  | protectedError
deriving Repr, DecidableEq

/-! Operations -/

/-- The receiver `pre_save_product_receiver` from `models.py` (lines 102–108): fires on
the pre-save signal; when the instance's slug is unset (falsy — the empty
string here) it assigns `unique_slug_generator(instance)`, otherwise it
leaves the instance alone.  The generator's read-only collision queries see
the slugs already persisted (`existing`); the random stream is `tokens`. -/
def pre_save_product_receiver (existing : List String) (tokens : List String)
    (inst : Product) : Product :=
  if inst.slug = "" then
    { inst with slug := unique_slug_generator existing inst.title tokens }
  else inst

/-- Saving (creating) a `Product`: Django fires the pre-save signal, then
performs the write, which the `unique=True` declaration on `slug` guards
with a storage-level unique constraint.  A constraint violation surfaces as
an `integrityError` and the store is left as it was; nothing in
`models.py` catches it. -/
def save_product (s : Store) (tokens : List String) (p : Product) :
    Except DBError Store :=
  let inst := pre_save_product_receiver (s.products.map Product.slug) tokens p
  if s.products.any (fun q => q.slug == inst.slug) then
    Except.error DBError.integrityError
  else
    Except.ok { s with products := inst :: s.products }

/-- Deleting a `PaymentMethod`: the `payment_method` FK of
`PurchasePaymentMethod` is declared `on_delete=PROTECT`, so the delete is
refused with a referential-integrity error while any
`PurchasePaymentMethod` references it; otherwise the row is removed.  An
error result leaves the caller holding the unchanged store. -/
def delete_payment_method (s : Store) (pmId : Nat) : Except DBError Store :=
  if s.purchasePaymentMethods.any (fun ppm => ppm.payment_method == pmId) then
    Except.error DBError.protectedError
  else
    Except.ok { s with paymentMethods := s.paymentMethods.filter (fun pm => pm.id != pmId) }

/-- Deleting a `Category`: both `Product` and `PurchaseItem` inherit the
`category` FK with `on_delete=CASCADE` from `ProductBase`, so the delete
removes the category row and cascades to every `Product` and every
`PurchaseItem` referencing it.  Nothing references those rows in turn, so
the cascade is total and never raises. -/
def delete_category (s : Store) (cid : Nat) : Store :=
  { s with
    categories := s.categories.filter (fun c => c.id != cid)
    products := s.products.filter (fun p => p.category != cid)
    purchaseItems := s.purchaseItems.filter (fun it => it.category != cid) }

/-- The invariant of claim C1: every persisted Product carries a non-empty
slug, and no two persisted Products share one. -/
def SlugInvariant (s : Store) : Prop :=
  (∀ p ∈ s.products, p.slug ≠ "") ∧ (s.products.map Product.slug).Nodup

instance (s : Store) : Decidable (SlugInvariant s) := by
  unfold SlugInvariant; infer_instance

/-! Concrete fixtures used by the example instantiations -/

def payStoreRef : Store :=
  { categories := [], products := [], paymentMethods := [⟨1, "cash"⟩],
    purchaseOrders := [⟨5, 0, 2, false⟩], purchaseItems := [],
    purchasePaymentMethods := [⟨9, 5, 1, ⟨[1], 0⟩⟩] }

def payStoreFree : Store :=
  { categories := [], products := [], paymentMethods := [⟨1, "cash"⟩, ⟨2, "card"⟩],
    purchaseOrders := [], purchaseItems := [], purchasePaymentMethods := [] }

def riceProduct : Product :=
  ⟨"222", "Rice", "d", "i", ⟨[1], 0⟩, 2, "rice"⟩

def catStore : Store :=
  { categories := [⟨1, "clothes"⟩, ⟨2, "food"⟩],
    products := [⟨"111", "Red Shirt", "d", "i", ⟨[1], 0⟩, 1, "red-shirt"⟩, riceProduct],
    paymentMethods := [], purchaseOrders := [], purchaseItems := [],
    purchasePaymentMethods := [] }

def shirtItem : PurchaseItem :=
  ⟨7, "111", "Red Shirt", "d", "i", ⟨[1], 0⟩, 1, 5, ⟨[2], 0⟩, ⟨[2], 0⟩⟩

def itemStore : Store :=
  { categories := [⟨1, "clothes"⟩], products := [], paymentMethods := [],
    purchaseOrders := [⟨5, 0, 2, true⟩], purchaseItems := [shirtItem],
    purchasePaymentMethods := [] }

/-! Character- and list-level lemmas about the normaliser -/

theorem mapChar_isSlugChar (c : Char) : isSlugChar (mapChar c) = true := by
  unfold mapChar isSlugChar
  by_cases h : isSlugBody c.toLower
  · simp [h]
  · simp [h]

theorem isSlugBody_ne_sep (c : Char) (h : isSlugBody c = true) : (c == '-') = false := by
  by_contra hne
  have hc : c = '-' := by
    have := Bool.of_not_eq_false hne
    exact eq_of_beq this
  subst hc
  simp [isSlugBody, Char.isLower, Char.isDigit] at h

theorem mem_collapseSep (l : List Char) (c : Char) (h : c ∈ collapseSep l) : c ∈ l := by
  induction l using collapseSep.induct with
  | case1 => simp [collapseSep] at h
  | case2 x => rw [collapseSep] at h; exact h
  | case3 a b rest hab ih =>
    rw [collapseSep, if_pos hab] at h
    exact List.mem_cons_of_mem a (ih h)
  | case4 a b rest hab ih =>
    rw [collapseSep, if_neg hab] at h
    rcases List.mem_cons.mp h with h1 | h2
    · exact h1 ▸ List.mem_cons_self a (b :: rest)
    · exact List.mem_cons_of_mem a (ih h2)

theorem mem_trimSep (l : List Char) (c : Char) (h : c ∈ trimSep l) : c ∈ l := by
  unfold trimSep at h
  rw [List.mem_reverse] at h
  have h1 := (List.dropWhile_suffix (fun c => c == '-')).subset h
  rw [List.mem_reverse] at h1
  exact (List.dropWhile_suffix (fun c => c == '-')).subset h1

theorem head_dropWhile_false (p : Char → Bool) (l : List Char) (c : Char)
    (h : (l.dropWhile p).head? = some c) : p c = false := by
  have hm := List.head?_dropWhile_not p l
  rw [h] at hm
  exact hm

theorem getLast_of_suffix (m r : List Char) (hs : m <:+ r) (hne : m ≠ []) :
    r.getLast? = m.getLast? := by
  obtain ⟨t, rfl⟩ := hs
  rw [List.getLast?_append]
  cases hm : m.getLast? with
  | none => exact absurd (List.getLast?_eq_none_iff.mp hm) hne
  | some x => rfl

theorem trimSep_head (l : List Char) (c : Char)
    (h : (trimSep l).head? = some c) : (c == '-') = false := by
  unfold trimSep at h
  rw [List.head?_reverse] at h
  have hm : ((l.dropWhile (fun x => x == '-')).reverse.dropWhile (fun x => x == '-')) ≠ [] := by
    intro hnil
    rw [hnil] at h
    simp at h
  have hsuf := List.dropWhile_suffix (l := (l.dropWhile (fun x => x == '-')).reverse)
    (fun x => x == '-')
  have hg := getLast_of_suffix _ _ hsuf hm
  rw [← hg, List.getLast?_reverse] at h
  exact head_dropWhile_false (fun x => x == '-') l c h

theorem trimSep_getLast (l : List Char) (c : Char)
    (h : (trimSep l).getLast? = some c) : (c == '-') = false := by
  unfold trimSep at h
  rw [List.getLast?_reverse] at h
  exact head_dropWhile_false (fun x => x == '-')
    (l.dropWhile (fun x => x == '-')).reverse c h

/-! Validity of the normaliser and the generator -/

theorem slugify_valid (s : String) (h : (slugify s).data ≠ []) :
    IsValidSlug (slugify s) = true := by
  have hdata : (slugify s).data = trimSep (collapseSep (s.data.map mapChar)) := rfl
  unfold IsValidSlug
  rw [hdata] at h ⊢
  cases hd : trimSep (collapseSep (s.data.map mapChar)) with
  | nil => exact absurd hd h
  | cons a rest =>
    have hall : ∀ c ∈ trimSep (collapseSep (s.data.map mapChar)), isSlugChar c = true := by
      intro c hc
      have h1 := mem_trimSep _ _ hc
      have h2 := mem_collapseSep _ _ h1
      obtain ⟨x, _, hx⟩ := List.mem_map.mp h2
      rw [← hx]
      exact mapChar_isSlugChar x
    rw [hd] at hall
    have hhead : (a == '-') = false := by
      apply trimSep_head (collapseSep (s.data.map mapChar)) a
      rw [hd]
      rfl
    have hL : (a :: rest).getLast? = some ((a :: rest).getLast (by simp)) :=
      List.getLast?_eq_getLast _ (by simp)
    have hlastc : (((a :: rest).getLast (by simp)) == '-') = false := by
      apply trimSep_getLast (collapseSep (s.data.map mapChar))
      rw [hd]
      exact hL
    rw [Bool.and_eq_true, Bool.and_eq_true, Bool.and_eq_true]
    refine ⟨⟨⟨by simp, ?_⟩, ?_⟩, ?_⟩
    · rw [List.all_eq_true]
      exact hall
    · simp only [List.headD_cons]
      simpa using hhead
    · rw [List.getLastD_eq_getLast?, hL, Option.getD_some]
      simpa using hlastc

theorem fallbackSlug_valid : IsValidSlug fallbackSlug = true := by decide

theorem slug_base_valid (t : String) : IsValidSlug (slug_base t) = true := by
  unfold slug_base
  by_cases h : (slugify t).data.isEmpty
  · simp only [h, if_true]
    exact fallbackSlug_valid
  · simp only [h, if_false]
    exact slugify_valid t (by simpa using h)

theorem slug_base_ne_nil (t : String) : (slug_base t).data ≠ [] := by
  have hv := slug_base_valid t
  unfold IsValidSlug at hv
  intro hnil
  rw [hnil] at hv
  simp at hv

/-- A valid slug stays valid when a separator and a non-empty all-body token
are appended. -/
theorem valid_append_token (b t : String)
    (hb : IsValidSlug b = true) (ht : t.data ≠ [])
    (htc : ∀ c ∈ t.data, isSlugBody c = true) :
    IsValidSlug (b ++ String.mk ['-'] ++ t) = true := by
  have hdata : (b ++ String.mk ['-'] ++ t).data = b.data ++ '-' :: t.data := by
    rw [String.data_append, String.data_append, List.append_assoc]
    rfl
  unfold IsValidSlug at hb ⊢
  rw [hdata]
  rw [Bool.and_eq_true, Bool.and_eq_true, Bool.and_eq_true] at hb
  obtain ⟨⟨⟨hbne', hball'⟩, hbhead⟩, _⟩ := hb
  have hbne : b.data ≠ [] := by simpa using hbne'
  have hball : ∀ c ∈ b.data, isSlugChar c = true := List.all_eq_true.mp hball'
  cases hbd : b.data with
  | nil => exact absurd hbd hbne
  | cons a brest =>
    rw [hbd] at hball hbhead
    rw [Bool.and_eq_true, Bool.and_eq_true, Bool.and_eq_true]
    refine ⟨⟨⟨by simp, ?_⟩, ?_⟩, ?_⟩
    · rw [List.all_eq_true]
      intro c hc
      rcases List.mem_append.mp hc with hcb | hct
      · exact hball c hcb
      · rcases List.mem_cons.mp hct with hsep | hbody
        · rw [hsep]
          decide
        · unfold isSlugChar
          rw [htc c hbody]
          simp
    · simp only [List.cons_append, List.headD_cons]
      simpa using hbhead
    · cases hlt : t.data with
      | nil => exact absurd hlt ht
      | cons x xs =>
        have hx : (x :: xs).getLast? = some ((x :: xs).getLast (by simp)) :=
          List.getLast?_eq_getLast _ (by simp)
        have hmem : (x :: xs).getLast (by simp) ∈ (x :: xs) :=
          List.getLast_mem (by simp)
        have hbody := htc _ (by rw [hlt]; exact hmem)
        have hnesep := isSlugBody_ne_sep _ hbody
        have hgl : ((a :: brest) ++ '-' :: x :: xs).getLast?
            = some ((x :: xs).getLast (by simp)) := by
          rw [List.getLast?_append, List.getLast?_cons_cons, hx]
          rfl
        rw [List.getLastD_eq_getLast?, hgl, Option.getD_some]
        simpa using hnesep

/-! The generator produces valid, non-empty slugs -/

theorem try_tokens_valid (existing : List String) (base : String) (tokens : List String)
    (hb : IsValidSlug base = true) (ht : tokens.all isGoodToken = true) :
    IsValidSlug (try_tokens existing base tokens) = true := by
  induction tokens with
  | nil => exact hb
  | cons t ts ih =>
    rw [List.all_cons, Bool.and_eq_true] at ht
    obtain ⟨hgt, hts⟩ := ht
    unfold isGoodToken at hgt
    rw [Bool.and_eq_true] at hgt
    simp only [try_tokens]
    by_cases hc : existing.contains (base ++ String.mk ['-'] ++ t) = true
    · simp only [hc, if_true]
      exact ih hts
    · simp only [hc, if_false]
      exact valid_append_token base t hb (by simpa using hgt.1)
        (List.all_eq_true.mp hgt.2)

theorem try_tokens_ne_nil (existing : List String) (base : String) (tokens : List String)
    (hb : base.data ≠ []) : (try_tokens existing base tokens).data ≠ [] := by
  induction tokens with
  | nil => exact hb
  | cons t ts ih =>
    simp only [try_tokens]
    by_cases hc : existing.contains (base ++ String.mk ['-'] ++ t) = true
    · simp only [hc, if_true]
      exact ih
    · simp only [hc, if_false]
      show (base ++ String.mk ['-'] ++ t).data ≠ []
      rw [String.data_append, String.data_append]
      simp

theorem slug_generator_ne_nil (existing : List String) (title : String)
    (tokens : List String) : (unique_slug_generator existing title tokens).data ≠ [] := by
  unfold unique_slug_generator
  by_cases hc : existing.contains (slug_base title) = true
  · simp only [hc, if_true]
    exact try_tokens_ne_nil _ _ _ (slug_base_ne_nil title)
  · simp only [hc, if_false]
    exact slug_base_ne_nil title

theorem slug_generator_ne_empty (existing : List String) (title : String)
    (tokens : List String) : unique_slug_generator existing title tokens ≠ "" := by
  intro h
  have hnil := slug_generator_ne_nil existing title tokens
  rw [h] at hnil
  exact hnil rfl

/-! Claims about the Creation Hook and the Slug Generator -/

/-- C2: the Creation Hook is idempotent — on a Product whose `slug` field is
already a non-empty value, `pre_save_product_receiver` returns the instance
unchanged, so it never overwrites an existing slug. -/
theorem pre_save_receiver_keeps_slug (existing tokens : List String) (p : Product)
    (h : p.slug ≠ "") : pre_save_product_receiver existing tokens p = p := by
  unfold pre_save_product_receiver
  rw [if_neg h]

theorem pre_save_receiver_keeps_slug_witness :
    ((⟨"111", "Red Shirt", "d", "i", ⟨[1], 0⟩, 1, "red-shirt"⟩ : Product).slug ≠ "")
    ∧ pre_save_product_receiver [] []
        ⟨"111", "Red Shirt", "d", "i", ⟨[1], 0⟩, 1, "red-shirt"⟩
      = ⟨"111", "Red Shirt", "d", "i", ⟨[1], 0⟩, 1, "red-shirt"⟩ :=
  ⟨by decide, pre_save_receiver_keeps_slug [] [] _ (by decide)⟩

/-- C3: on a Product whose `slug` field is unset, the Creation Hook invokes
the Slug Generator on the Product's title and assigns the result before the
write; the assigned slug is populated (non-empty). -/
theorem pre_save_receiver_assigns_slug (existing tokens : List String) (p : Product)
    (h : p.slug = "") :
    (pre_save_product_receiver existing tokens p).slug
        = unique_slug_generator existing p.title tokens
    ∧ (pre_save_product_receiver existing tokens p).slug ≠ "" := by
  unfold pre_save_product_receiver
  rw [if_pos h]
  exact ⟨rfl, slug_generator_ne_empty existing p.title tokens⟩

theorem pre_save_receiver_assigns_slug_witness :
    ((⟨"111", "Red Shirt", "d", "i", ⟨[1], 0⟩, 1, ""⟩ : Product).slug = "")
    ∧ (pre_save_product_receiver [] []
          ⟨"111", "Red Shirt", "d", "i", ⟨[1], 0⟩, 1, ""⟩).slug
        = unique_slug_generator []
            (Product.title ⟨"111", "Red Shirt", "d", "i", ⟨[1], 0⟩, 1, ""⟩) []
    ∧ (pre_save_product_receiver [] []
          ⟨"111", "Red Shirt", "d", "i", ⟨[1], 0⟩, 1, ""⟩).slug ≠ "" :=
  ⟨by decide,
   (pre_save_receiver_assigns_slug [] [] _ (by decide)).1,
   (pre_save_receiver_assigns_slug [] [] _ (by decide)).2⟩

/-- C4: for every title, the Slug Generator returns a non-empty URL-safe
string — only lowercase alphanumerics and the separator character, with no
leading or trailing separator — whatever slugs already exist, provided the
random tokens are drawn from the generator's lowercase-alphanumeric
alphabet. -/
theorem slug_generator_url_safe (existing : List String) (title : String)
    (tokens : List String) (htok : tokens.all isGoodToken = true) :
    IsValidSlug (unique_slug_generator existing title tokens) = true := by
  unfold unique_slug_generator
  by_cases hc : existing.contains (slug_base title) = true
  · simp only [hc, if_true]
    exact try_tokens_valid _ _ _ (slug_base_valid title) htok
  · simp only [hc, if_false]
    exact slug_base_valid title

theorem slug_generator_url_safe_witness :
    (["ab12"].all isGoodToken = true)
    ∧ IsValidSlug (unique_slug_generator ["red-shirt"] ("Red Shirt") ["ab12"]) = true :=
  ⟨by decide, slug_generator_url_safe ["red-shirt"] ("Red Shirt") ["ab12"] (by decide)⟩

/-- C5: a title consisting solely of punctuation or whitespace — one whose
normalised base form is empty — makes the generator substitute the non-empty
fallback base before the uniqueness loop, and the resulting slug is still a
valid non-empty slug. -/
theorem all_punct_title_fallback (existing : List String) (title : String)
    (tokens : List String) (hpunct : (slugify title).data = [])
    (htok : tokens.all isGoodToken = true) :
    slug_base title = fallbackSlug
    ∧ IsValidSlug (unique_slug_generator existing title tokens) = true := by
  constructor
  · unfold slug_base
    simp [hpunct]
  · unfold unique_slug_generator
    by_cases hc : existing.contains (slug_base title) = true
    · simp only [hc, if_true]
      exact try_tokens_valid _ _ _ (slug_base_valid title) htok
    · simp only [hc, if_false]
      exact slug_base_valid title

theorem all_punct_title_fallback_witness :
    ((slugify ("!!! ???")).data = [])
    ∧ (["x9"].all isGoodToken = true)
    ∧ slug_base ("!!! ???") = fallbackSlug
    ∧ IsValidSlug (unique_slug_generator ["product"] ("!!! ???") ["x9"]) = true :=
  ⟨by decide, by decide,
   (all_punct_title_fallback ["product"] ("!!! ???") ["x9"] (by decide) (by decide)).1,
   (all_punct_title_fallback ["product"] ("!!! ???") ["x9"] (by decide) (by decide)).2⟩

/-! Claims about persistence of Products -/

/-- C1: the slug invariant — every persisted Product has a non-empty slug
and no two persisted Products share one — is preserved by every successful
Product save: the creation hook populates empty slugs and the storage-level
unique constraint on `slug` refuses duplicates. -/
theorem slug_invariant_preserved (s : Store) (tokens : List String) (p : Product)
    (s' : Store) (hinv : SlugInvariant s)
    (hok : save_product s tokens p = Except.ok s') : SlugInvariant s' := by
  simp only [save_product] at hok
  by_cases hc : s.products.any
      (fun q => q.slug ==
        (pre_save_product_receiver (s.products.map Product.slug) tokens p).slug) = true
  · rw [if_pos hc] at hok
    exact Except.noConfusion hok
  · rw [if_neg hc] at hok
    injection hok with hs'
    subst hs'
    rw [Bool.not_eq_true, List.any_eq_false] at hc
    constructor
    · intro q hq
      rcases List.mem_cons.mp hq with h1 | h2
      · subst h1
        unfold pre_save_product_receiver
        by_cases hp : p.slug = ""
        · rw [if_pos hp]
          exact slug_generator_ne_empty _ _ _
        · rw [if_neg hp]
          exact hp
      · exact hinv.1 q h2
    · rw [List.map_cons, List.nodup_cons]
      refine ⟨?_, hinv.2⟩
      intro hmem
      obtain ⟨q, hq, hqe⟩ := List.mem_map.mp hmem
      exact hc q hq (beq_iff_eq.mpr hqe)

theorem slug_invariant_preserved_witness :
    SlugInvariant
      { categories := [], products := [], paymentMethods := [],
        purchaseOrders := [], purchaseItems := [], purchasePaymentMethods := [] }
    ∧ SlugInvariant
      { categories := [],
        products := [⟨"111", "Red Shirt", "d", "i", ⟨[1], 0⟩, 1, "red-shirt"⟩],
        paymentMethods := [], purchaseOrders := [], purchaseItems := [],
        purchasePaymentMethods := [] } :=
  ⟨by decide,
   slug_invariant_preserved
    { categories := [], products := [], paymentMethods := [],
      purchaseOrders := [], purchaseItems := [], purchasePaymentMethods := [] }
    [] ⟨"111", "Red Shirt", "d", "i", ⟨[1], 0⟩, 1, ""⟩
    { categories := [],
      products := [⟨"111", "Red Shirt", "d", "i", ⟨[1], 0⟩, 1, "red-shirt"⟩],
      paymentMethods := [], purchaseOrders := [], purchaseItems := [],
      purchasePaymentMethods := [] }
    (by decide) (by rfl)⟩

/-- C6 counterexample: with a Product already persisted under slug
"red-shirt", saving a second Product whose slug is pre-set to the same value
returns the raw storage-level unique-constraint violation to the caller —
the Creation Hook does not catch it, regenerate, or retry, contradicting the
claim that the raw violation is never surfaced. -/
theorem save_product_surfaces_integrity_error :
    save_product
      { categories := [],
        products := [⟨"112", "Red Shirt", "d", "i", ⟨[1], 0⟩, 1, "red-shirt"⟩],
        paymentMethods := [], purchaseOrders := [], purchaseItems := [],
        purchasePaymentMethods := [] }
      []
      ⟨"111", "Blue Shirt", "d", "i", ⟨[1], 0⟩, 1, "red-shirt"⟩
    = Except.error DBError.integrityError := by rfl

/-- C6 (amended): the Creation Hook performs no catch-and-retry: whenever
the slug carried into the write collides with a persisted slug, the save
surfaces the integrity error to the caller as-is, with no bounded retry and
no separate fatal error. -/
theorem save_product_conflict_errors (s : Store) (tokens : List String) (p : Product)
    (hc : s.products.any
      (fun q => q.slug ==
        (pre_save_product_receiver (s.products.map Product.slug) tokens p).slug) = true) :
    save_product s tokens p = Except.error DBError.integrityError := by
  simp only [save_product]
  rw [if_pos hc]

theorem save_product_conflict_errors_witness :
    (({ categories := [],
        products := [⟨"112", "Red Shirt", "d", "i", ⟨[1], 0⟩, 1, "red-shirt"⟩],
        paymentMethods := [], purchaseOrders := [], purchaseItems := [],
        purchasePaymentMethods := [] } : Store).products.any
      (fun q => q.slug ==
        (pre_save_product_receiver
          (({ categories := [],
              products := [⟨"112", "Red Shirt", "d", "i", ⟨[1], 0⟩, 1, "red-shirt"⟩],
              paymentMethods := [], purchaseOrders := [], purchaseItems := [],
              purchasePaymentMethods := [] } : Store).products.map Product.slug)
          [] ⟨"113", "Red Shirt", "d", "i", ⟨[1], 0⟩, 1, ""⟩).slug) = true)
    ∧ save_product
        { categories := [],
          products := [⟨"112", "Red Shirt", "d", "i", ⟨[1], 0⟩, 1, "red-shirt"⟩],
          paymentMethods := [], purchaseOrders := [], purchaseItems := [],
          purchasePaymentMethods := [] }
        [] ⟨"113", "Red Shirt", "d", "i", ⟨[1], 0⟩, 1, ""⟩
      = Except.error DBError.integrityError :=
  ⟨by decide,
   save_product_conflict_errors
    { categories := [],
      products := [⟨"112", "Red Shirt", "d", "i", ⟨[1], 0⟩, 1, "red-shirt"⟩],
      paymentMethods := [], purchaseOrders := [], purchaseItems := [],
      purchasePaymentMethods := [] }
    [] ⟨"113", "Red Shirt", "d", "i", ⟨[1], 0⟩, 1, ""⟩ (by decide)⟩

/-! Claims about referential actions -/

/-- C7: deleting a PaymentMethod that some PurchasePaymentMethod references
fails with the referential-integrity error (no replacement store is
produced, so both records stay as they were); deleting an unreferenced
PaymentMethod succeeds, removes exactly that method, keeps every other
method, and leaves the PurchasePaymentMethod rows untouched. -/
theorem delete_payment_method_protect (s : Store) (pmId : Nat) :
    ((∃ ppm ∈ s.purchasePaymentMethods, ppm.payment_method = pmId) →
        delete_payment_method s pmId = Except.error DBError.protectedError)
    ∧ ((∀ ppm ∈ s.purchasePaymentMethods, ppm.payment_method ≠ pmId) →
        ∃ s', delete_payment_method s pmId = Except.ok s'
          ∧ (∀ pm ∈ s'.paymentMethods, pm.id ≠ pmId)
          ∧ (∀ pm ∈ s.paymentMethods, pm.id ≠ pmId → pm ∈ s'.paymentMethods)
          ∧ s'.purchasePaymentMethods = s.purchasePaymentMethods) := by
  constructor
  · intro hex
    obtain ⟨ppm, hmem, heq⟩ := hex
    have hany : (s.purchasePaymentMethods.any
        fun ppm => ppm.payment_method == pmId) = true :=
      List.any_eq_true.mpr ⟨ppm, hmem, beq_iff_eq.mpr heq⟩
    unfold delete_payment_method
    rw [if_pos hany]
  · intro hall
    have hfalse : (s.purchasePaymentMethods.any
        fun ppm => ppm.payment_method == pmId) = false := by
      rw [List.any_eq_false]
      intro ppm hmem hbeq
      exact hall ppm hmem (beq_iff_eq.mp hbeq)
    unfold delete_payment_method
    rw [if_neg (by rw [hfalse]; exact Bool.false_ne_true)]
    refine ⟨_, rfl, ?_, ?_, rfl⟩
    · intro pm hpm
      have h1 := (List.mem_filter.mp hpm).2
      simpa using h1
    · intro pm hpm hne
      exact List.mem_filter.mpr ⟨hpm, by simpa using hne⟩

theorem delete_payment_method_protect_witness :
    delete_payment_method payStoreRef 1 = Except.error DBError.protectedError
    ∧ (∃ s', delete_payment_method payStoreFree 2 = Except.ok s'
        ∧ (∀ pm ∈ s'.paymentMethods, pm.id ≠ 2)
        ∧ (∀ pm ∈ payStoreFree.paymentMethods, pm.id ≠ 2 → pm ∈ s'.paymentMethods)
        ∧ s'.purchasePaymentMethods = payStoreFree.purchasePaymentMethods) :=
  ⟨(delete_payment_method_protect payStoreRef 1).1
    ⟨⟨9, 5, 1, ⟨[1], 0⟩⟩, by decide, rfl⟩,
   (delete_payment_method_protect payStoreFree 2).2 (by decide)⟩

/-- C8: deleting a Category cascade-deletes every Product whose `category`
references it and never raises (the operation is a total function on
stores): afterwards no Product referencing the Category remains, Products of
other categories all survive, and the Category row itself is gone. -/
theorem delete_category_cascades_products (s : Store) (cid : Nat) :
    ((delete_category s cid).products.all (fun p => p.category != cid) = true)
    ∧ (∀ p ∈ s.products, p.category ≠ cid → p ∈ (delete_category s cid).products)
    ∧ ((delete_category s cid).categories.all (fun c => c.id != cid) = true) := by
  refine ⟨?_, ?_, ?_⟩
  · rw [List.all_eq_true]
    intro p hp
    exact (List.mem_filter.mp hp).2
  · intro p hp hne
    exact List.mem_filter.mpr ⟨hp, by simpa using hne⟩
  · rw [List.all_eq_true]
    intro c hc
    exact (List.mem_filter.mp hc).2

theorem delete_category_cascades_products_witness :
    ((delete_category catStore 1).products.all (fun p => p.category != 1) = true)
    ∧ riceProduct ∈ (delete_category catStore 1).products :=
  ⟨(delete_category_cascades_products catStore 1).1,
   (delete_category_cascades_products catStore 1).2.1 riceProduct
    (by decide) (by decide)⟩

/-- C10: `PurchaseItem` inherits the required `category` reference with
cascade-delete from `ProductBase`, so deleting a Category also
cascade-deletes every historical PurchaseItem line item that references it —
afterwards no such line item remains in the store. -/
theorem delete_category_cascades_purchase_items (s : Store) (cid : Nat) :
    ((delete_category s cid).purchaseItems.all (fun it => it.category != cid) = true)
    ∧ (∀ it ∈ s.purchaseItems, it.category = cid →
        it ∉ (delete_category s cid).purchaseItems) := by
  constructor
  · rw [List.all_eq_true]
    intro it hit
    exact (List.mem_filter.mp hit).2
  · intro it _ hcat hmem
    have h2 := (List.mem_filter.mp hmem).2
    rw [hcat] at h2
    simp at h2

theorem delete_category_cascades_purchase_items_witness :
    ((delete_category itemStore 1).purchaseItems.all
        (fun it => it.category != 1) = true)
    ∧ shirtItem ∉ (delete_category itemStore 1).purchaseItems :=
  ⟨(delete_category_cascades_purchase_items itemStore 1).1,
   (delete_category_cascades_purchase_items itemStore 1).2 shirtItem
    (by decide) (by decide)⟩

/-! Claims about decimal validation -/

theorem places_le_digit_count (d : DecimalVal) :
    decimal_places_count d ≤ decimal_digit_count d := by
  unfold decimal_places_count decimal_digit_count
  by_cases he : 0 ≤ d.exponent
  · simp [he]
  · simp only [he, if_false]
    by_cases hl : d.digits.length < (-d.exponent).toNat
    · simp [hl]
    · simp only [hl, if_false]
      omega

/-- C9 counterexample: the decimal 123456.78 — digit tuple (1,…,8), exponent
−2 — has 8 total digits and 2 fractional digits, so the claim's acceptance
condition ("at most 8 total digits and 3 fractional digits") admits it, yet
the `DecimalField(max_digits=8, decimal_places=3)` validation declared on
`price` rejects it: its 6 whole digits exceed the 5 the field allows. -/
theorem price_claim_counterexample :
    claimed_price_accepts ⟨[1, 2, 3, 4, 5, 6, 7, 8], -2⟩ = true
    ∧ price_valid ⟨[1, 2, 3, 4, 5, 6, 7, 8], -2⟩ = false := by decide

/-- C9 (amended): the price field accepts exactly the fixed-point decimals
with at most 3 fractional digits and at most 5 whole digits (hence at most 8
digits in total); in particular "1234567.89" (seven whole digits) is
rejected and "12345.678" is accepted. -/
theorem price_validation_characterised (d : DecimalVal) :
    (price_valid d = true
      ↔ (decimal_places_count d ≤ 3 ∧ whole_digit_count d ≤ 5))
    ∧ price_valid ⟨[1, 2, 3, 4, 5, 6, 7, 8, 9], -2⟩ = false
    ∧ price_valid ⟨[1, 2, 3, 4, 5, 6, 7, 8], -3⟩ = true := by
  refine ⟨?_, by decide, by decide⟩
  unfold price_valid validate_decimal
  constructor
  · intro h
    simp only [Bool.and_eq_true, decide_eq_true_eq] at h
    exact ⟨h.1.2, h.2⟩
  · intro hcond
    obtain ⟨h1, h2⟩ := hcond
    simp only [Bool.and_eq_true, decide_eq_true_eq]
    have hple := places_le_digit_count d
    unfold whole_digit_count at h2 ⊢
    refine ⟨⟨?_, h1⟩, h2⟩
    omega

theorem price_validation_characterised_witness :
    price_valid ⟨[1, 2, 3], -3⟩ = true :=
  (price_validation_characterised ⟨[1, 2, 3], -3⟩).1.mpr (by decide)

end PyShop
